import Mathlib

/-!
Verification of `src/langgraph/send_api/send_graph.py`.

The script builds a langgraph `StateGraph` over a `MessagesState` schema
(`questions : list[str]` with the default overwrite reducer, `answers :
list[str]` with the `operator.add` append reducer), wires
START -> generate_answers, a conditional edge from generate_answers driven by
`send_logic` with allowed targets `["answer_questions"]`, and
answer_questions -> END, then calls `graph.invoke({"questions": [...]})`.

The node and routing functions are embedded directly from the source.  The
execution engine (superstep scheduler, fan-out dispatch, reducer merge) lives
in the langgraph library, which is not part of this repository's sources, so
it is modelled from the specification's description of the engine; every such
definition carries a doc comment starting `Modelled from the spec:`.
The external language-model call made inside `answer_questions` is treated as
an opaque function `model_invoke : String → Except String String` (it may
fail), exactly as the spec declares it an out-of-scope collaborator.
-/

/-- The shared state snapshot: the two channels declared by the
`MessagesState` TypedDict (send_graph.py lines 28-30). -/
structure SharedState where
  questions : List String
  answers : List String
deriving Repr, DecidableEq

/-- The channel names of the `MessagesState` schema (send_graph.py lines
28-30): `questions` and `answers`; there is no `question` channel. -/
def MessagesState.fields : List String := ["questions", "answers"]

/-- A partial state mapping: an update returned by a node, or a dispatch
payload.  Each key of the Python dict is an optional field; `none` means the
key is absent.  The only keys any dict in the script ever carries are
`questions`, `answers` and `question`. -/
structure StateDelta where
  questions : Option (List String) := none
  answers : Option (List String) := none
  question : Option String := none
deriving Repr, DecidableEq

/-- The read-only state view a node instance receives: the shared snapshot
fields, possibly extended by a dispatch payload's extra `question` key. -/
structure StateView where
  questions : List String
  answers : List String
  question : Option String
deriving Repr, DecidableEq

/-- A `Send` object (langgraph.types.Send): a target node name and a payload
dict, as constructed in send_graph.py line 39. -/
structure Send where
  target : String
  payload : StateDelta
deriving Repr, DecidableEq

/-- `generate_answers` (send_graph.py lines 33-35): returns
`{'questions': state['questions']}`. -/
def generate_answers (state : StateView) : StateDelta :=
  { questions := some state.questions }

/-- `send_logic` (send_graph.py lines 38-39): returns
`[Send("answer_questions", {"question": s}) for s in state['questions']]`. -/
def send_logic (state : StateView) : List Send :=
  state.questions.map fun s => { target := "answer_questions", payload := { question := some s } }

/-- An error raised by a node function body: a Python `KeyError` from a
missing state key, or a failure raised by the external model call. -/
inductive NodeError where
  | keyError (field : String)
  | raised (msg : String)
deriving Repr, DecidableEq

/-- `answer_questions` (send_graph.py lines 42-47): reads `state['question']`
(a `KeyError` if the key is absent), calls the external model on it, and
returns `{'answers': [response.text]}`.  The external call
`model.invoke(...).text` is the opaque parameter `model_invoke`. -/
def answer_questions (model_invoke : String → Except String String)
    (state : StateView) : Except NodeError StateDelta :=
  match state.question with
  | none => .error (.keyError "question")
  | some q =>
    match model_invoke q with
    | .error msg => .error (.raised msg)
    | .ok text => .ok { answers := some [text] }

/-- The registered node names of this graph (send_graph.py lines 51-52). -/
inductive NodeName where
  | generate_answers
  | answer_questions
deriving Repr, DecidableEq

/-- A frontier member: a node name together with its payload overlay. -/
abbrev NodeInstance := NodeName × StateDelta

/-- An error that aborts the whole invocation. -/
inductive EngineError where
  | routingViolation (target : String)
  | aggregate (errors : List NodeError)
deriving Repr, DecidableEq

/-- Modelled from the spec: the per-instance view is the shared snapshot's
fields overridden by the instance's payload overlay (overlaid on top of, not
replacing, the snapshot).  The engine that builds these views is part of the
langgraph library, absent from src/. -/
def view (snapshot : SharedState) (overlay : StateDelta) : StateView :=
  { questions := overlay.questions.getD snapshot.questions
    answers := overlay.answers.getD snapshot.answers
    question := overlay.question }

/-- Modelled from the spec: reducer-based merge of one partial update into
the snapshot — `questions` has the overwrite reducer, `answers` the append
reducer (`operator.add`).  The merge logic is in the langgraph library,
absent from src/. -/
def applyUpdate (snapshot : SharedState) (upd : StateDelta) : SharedState :=
  { questions := upd.questions.getD snapshot.questions
    answers := snapshot.answers ++ upd.answers.getD [] }

/-- Modelled from the spec: the merge barrier folds the partial updates into
the snapshot in the frontier's deterministic enumeration order. -/
def mergeUpdates (snapshot : SharedState) (updates : List StateDelta) : SharedState :=
  updates.foldl applyUpdate snapshot

/-- Modelled from the spec: running one node instance against its
per-instance view.  `generate_answers` always returns a partial mapping;
`answer_questions` may fail. -/
def runNode (model_invoke : String → Except String String) (snapshot : SharedState) :
    NodeInstance → Except NodeError StateDelta
  | (.generate_answers, overlay) => .ok (generate_answers (view snapshot overlay))
  | (.answer_questions, overlay) => answer_questions model_invoke (view snapshot overlay)

/-- The error of a failed instance result, if any. -/
def errOf : Except NodeError StateDelta → Option NodeError
  | .error e => some e
  | .ok _ => none

/-- The partial update of a successful instance result, if any. -/
def okOf : Except NodeError StateDelta → Option StateDelta
  | .ok u => some u
  | .error _ => none

/-- The error contributed by one `answer_questions` instance whose external
model call returned `r`, if it failed. -/
def instanceError (r : Except String String) : Option NodeError :=
  match r with
  | .error m => some (.raised m)
  | .ok _ => none

/-- Modelled from the spec: the node registry of this graph maps the two
registered names (send_graph.py lines 51-52) to their node functions; any
other string is unregistered. -/
def resolveNode : String → Option NodeName
  | "generate_answers" => some .generate_answers
  | "answer_questions" => some .answer_questions
  | _ => none

/-- Modelled from the spec: dispatch-time validation of one `Send` against
the conditional edge's declared `allowed_targets`; a target outside the
allowed set fails the invocation with a routing violation. -/
def resolveSend (allowed : List String) (s : Send) : Except EngineError NodeInstance :=
  if s.target ∈ allowed then
    match resolveNode s.target with
    | some n => .ok (n, s.payload)
    | none => .error (.routingViolation s.target)
  else .error (.routingViolation s.target)

/-- Modelled from the spec: validate and resolve a whole dispatch list, in
list order. -/
def resolveSends (allowed : List String) : List Send → Except EngineError (List NodeInstance)
  | [] => .ok []
  | s :: rest =>
    match resolveSend allowed s with
    | .error e => .error e
    | .ok inst =>
      match resolveSends allowed rest with
      | .error e => .error e
      | .ok insts => .ok (inst :: insts)

/-- Modelled from the spec: next-frontier contribution of one node that just
ran.  `generate_answers` carries the conditional edge driven by `send_logic`
with `allowed_targets = ["answer_questions"]` (send_graph.py line 55),
evaluated against the merged snapshot; `answer_questions` has only the static
edge to END (line 56), contributing nothing. -/
def nextFromNode (merged : SharedState) : NodeName → Except EngineError (List NodeInstance)
  | .generate_answers => resolveSends ["answer_questions"] (send_logic (view merged {}))
  | .answer_questions => .ok []

/-- Modelled from the spec: the next frontier is the concatenation, in
frontier order, of each just-run node's outgoing dispatches. -/
def nextFrontier (merged : SharedState) : List NodeName → Except EngineError (List NodeInstance)
  | [] => .ok []
  | n :: rest =>
    match nextFromNode merged n with
    | .error e => .error e
    | .ok insts =>
      match nextFrontier merged rest with
      | .error e => .error e
      | .ok rest' => .ok (insts ++ rest')

/-- Modelled from the spec: one superstep.  Every frontier instance runs
against its own view of the same pre-barrier snapshot; all failures are
collected (siblings still run); if any instance failed the superstep fails
with an aggregate error bundling exactly the collected errors; otherwise the
updates merge in frontier order and the next frontier is computed from the
merged snapshot. -/
def runSuperstep (model_invoke : String → Except String String)
    (snapshot : SharedState) (frontier : List NodeInstance) :
    Except EngineError (SharedState × List NodeInstance) :=
  let results := frontier.map (runNode model_invoke snapshot)
  let errs := results.filterMap errOf
  if errs.isEmpty then
    let merged := mergeUpdates snapshot (results.filterMap okOf)
    match nextFrontier merged (frontier.map Prod.fst) with
    | .error e => .error e
    | .ok nf => .ok (merged, nf)
  else
    .error (.aggregate errs)

/-- Modelled from the spec: run supersteps until the frontier is empty, then
return the fully merged state.  The recursion is fuel-indexed; `none` means
the fuel was exhausted before the frontier emptied (the termination theorem
shows fuel 2 always suffices for this graph). -/
def runSupersteps (model_invoke : String → Except String String) :
    Nat → SharedState → List NodeInstance → Option (Except EngineError SharedState)
  | _, snapshot, [] => some (.ok snapshot)
  | 0, _, _ :: _ => none
  | fuel + 1, snapshot, inst :: rest =>
    match runSuperstep model_invoke snapshot (inst :: rest) with
    | .error e => some (.error e)
    | .ok (merged, next) => runSupersteps model_invoke fuel merged next

/-- The initial snapshot produced from the input dict
`{"questions": qs}` (send_graph.py line 60): the `questions` channel holds
the input list and the append-reducer channel `answers` starts empty. -/
def initialState (questions : List String) : SharedState :=
  { questions := questions, answers := [] }

/-- Modelled from the spec: `graph.invoke({"questions": qs})`
(send_graph.py line 60).  The initial frontier is the successor of START —
`generate_answers` with no payload overlay (line 53).  Two supersteps of fuel
are enough for this acyclic graph, as proved below. -/
def invoke (model_invoke : String → Except String String)
    (questions : List String) : Option (Except EngineError SharedState) :=
  runSupersteps model_invoke 2 (initialState questions) [(.generate_answers, {})]

/-- The fan-out frontier spawned by `send_logic`: one `answer_questions`
instance per question, each with its own `question` payload. -/
def answerFrontier (qs : List String) : List NodeInstance :=
  qs.map fun q => (.answer_questions, { question := some q })

example : invoke (fun q => .ok (q ++ "!")) ["a", "b"] =
    some (.ok { questions := ["a", "b"], answers := ["a!", "b!"] }) := rfl

example : invoke (fun q => if q = "b" then .error "boom" else .ok q) ["a", "b"] =
    some (.error (.aggregate [.raised "boom"])) := rfl

example : invoke (fun q => .ok q) [] = some (.ok { questions := [], answers := [] }) := rfl

example : send_logic { questions := [], answers := [], question := none } = [] := by decide

/-! ### Helper lemmas about the engine on this graph -/

lemma resolveSend_answer (p : StateDelta) :
    resolveSend ["answer_questions"] { target := "answer_questions", payload := p } =
      .ok (.answer_questions, p) := rfl

lemma resolveSends_map_answer (l : List String) :
    resolveSends ["answer_questions"]
        (l.map fun s => ({ target := "answer_questions", payload := { question := some s } } : Send)) =
      .ok (answerFrontier l) := by
  induction l with
  | nil => rfl
  | cons q rest ih =>
    simp only [List.map_cons, resolveSends, resolveSend_answer, ih, answerFrontier]

lemma resolveSends_send_logic (v : StateView) :
    resolveSends ["answer_questions"] (send_logic v) = .ok (answerFrontier v.questions) := by
  simpa [send_logic] using resolveSends_map_answer v.questions

lemma view_empty (snap : SharedState) :
    view snap {} = { questions := snap.questions, answers := snap.answers, question := none } := rfl

lemma runSuperstep_gen (f : String → Except String String) (snap : SharedState) :
    runSuperstep f snap [(.generate_answers, {})] = .ok (snap, answerFrontier snap.questions) := by
  obtain ⟨qs, as⟩ := snap
  simp [runSuperstep, runNode, generate_answers, view, errOf, okOf, mergeUpdates, applyUpdate,
    nextFrontier, nextFromNode, resolveSends_send_logic]

lemma runNode_answer (f : String → Except String String) (snap : SharedState) (q : String) :
    runNode f snap (.answer_questions, { question := some q }) =
      match f q with
      | .error m => .error (.raised m)
      | .ok t => .ok { answers := some [t] } := rfl

lemma answerFrontier_errs (f : String → Except String String) (snap : SharedState)
    (qs : List String) :
    ((answerFrontier qs).map (runNode f snap)).filterMap errOf =
      qs.filterMap fun q => instanceError (f q) := by
  induction qs with
  | nil => rfl
  | cons q rest ih =>
    simp only [answerFrontier, List.map_cons, List.filterMap_cons]
    rw [runNode_answer]
    cases h : f q with
    | error m =>
      simp only [h, errOf, instanceError]
      rw [show (answerFrontier rest).map (runNode f snap) =
            (rest.map fun q =>
              ((NodeName.answer_questions, { question := some q }) : NodeInstance)).map
              (runNode f snap) from rfl] at ih
      rw [ih]
      rfl
    | ok t =>
      simp only [h, errOf, instanceError]
      rw [show (answerFrontier rest).map (runNode f snap) =
            (rest.map fun q =>
              ((NodeName.answer_questions, { question := some q }) : NodeInstance)).map
              (runNode f snap) from rfl] at ih
      rw [ih]
      rfl

lemma answerFrontier_oks (f : String → Except String String) (g : String → String)
    (snap : SharedState) (qs : List String) (hall : ∀ q ∈ qs, f q = .ok (g q)) :
    ((answerFrontier qs).map (runNode f snap)).filterMap okOf =
      qs.map fun q => ({ answers := some [g q] } : StateDelta) := by
  induction qs with
  | nil => rfl
  | cons q rest ih =>
    have hq : f q = .ok (g q) := hall q (List.mem_cons_self q rest)
    have ih' := ih fun x hx => hall x (List.mem_cons_of_mem q hx)
    simp only [answerFrontier, List.map_cons, List.filterMap_cons]
    rw [runNode_answer, hq]
    simp only [okOf]
    rw [show (answerFrontier rest).map (runNode f snap) =
          (rest.map fun q =>
            ((NodeName.answer_questions, { question := some q }) : NodeInstance)).map
            (runNode f snap) from rfl] at ih'
    rw [ih']

lemma answerFrontier_oks_mem (f : String → Except String String) (snap : SharedState)
    (qs : List String) (u : StateDelta)
    (hu : u ∈ ((answerFrontier qs).map (runNode f snap)).filterMap okOf) :
    u.questions = none := by
  rcases List.mem_filterMap.mp hu with ⟨r, hr, hok⟩
  rcases List.mem_map.mp hr with ⟨inst, hinst, rfl⟩
  rcases List.mem_map.mp hinst with ⟨q, _, rfl⟩
  rw [runNode_answer] at hok
  cases h : f q with
  | error m => rw [h] at hok; simp [okOf] at hok
  | ok t =>
    rw [h] at hok
    simp only [okOf, Option.some.injEq] at hok
    subst hok
    rfl

lemma mergeUpdates_answers (ts : List String) (q0 a0 : List String) :
    mergeUpdates ⟨q0, a0⟩ (ts.map fun t => ({ answers := some [t] } : StateDelta)) =
      ⟨q0, a0 ++ ts⟩ := by
  induction ts generalizing a0 with
  | nil => simp [mergeUpdates]
  | cons t rest ih =>
    show mergeUpdates (applyUpdate ⟨q0, a0⟩ { answers := some [t] })
        (rest.map fun t => ({ answers := some [t] } : StateDelta)) = ⟨q0, a0 ++ t :: rest⟩
    rw [show applyUpdate (⟨q0, a0⟩ : SharedState) ({ answers := some [t] } : StateDelta) =
          ⟨q0, a0 ++ [t]⟩ from rfl]
    rw [ih]
    simp

lemma mergeUpdates_questions_of_none (l : List StateDelta) (snap : SharedState)
    (hl : ∀ u ∈ l, u.questions = none) :
    (mergeUpdates snap l).questions = snap.questions := by
  induction l generalizing snap with
  | nil => rfl
  | cons u rest ih =>
    have hu : u.questions = none := hl u (List.mem_cons_self u rest)
    have step : (applyUpdate snap u).questions = snap.questions := by
      simp [applyUpdate, hu]
    calc (mergeUpdates (applyUpdate snap u) rest).questions
        = (applyUpdate snap u).questions := ih _ fun x hx => hl x (List.mem_cons_of_mem u hx)
      _ = snap.questions := step

lemma nextFrontier_answers (m : SharedState) (qs : List String) :
    nextFrontier m (qs.map fun _ => NodeName.answer_questions) = .ok [] := by
  induction qs with
  | nil => rfl
  | cons q rest ih =>
    simp only [List.map_cons, nextFrontier, nextFromNode, ih, List.nil_append]

lemma answerFrontier_fst (qs : List String) :
    (answerFrontier qs).map Prod.fst = qs.map fun _ => NodeName.answer_questions := by
  induction qs with
  | nil => rfl
  | cons q rest ih =>
    simp only [answerFrontier, List.map_cons] at ih ⊢
    rw [ih]

lemma runSuperstep_answer_err (f : String → Except String String) (snap : SharedState)
    (qs : List String) (hne : (qs.filterMap fun q => instanceError (f q)) ≠ []) :
    runSuperstep f snap (answerFrontier qs) =
      .error (.aggregate (qs.filterMap fun q => instanceError (f q))) := by
  have h0 : (qs.filterMap fun q => instanceError (f q)).isEmpty = false := by
    cases hqs : qs.filterMap fun q => instanceError (f q) with
    | nil => exact absurd hqs hne
    | cons a l => rfl
  simp only [runSuperstep]
  rw [answerFrontier_errs, h0]
  simp

lemma runSuperstep_answer_ok (f : String → Except String String) (snap : SharedState)
    (qs : List String) (h0 : (qs.filterMap fun q => instanceError (f q)) = []) :
    ∃ m : SharedState, runSuperstep f snap (answerFrontier qs) = .ok (m, []) ∧
      m.questions = snap.questions := by
  refine ⟨mergeUpdates snap (((answerFrontier qs).map (runNode f snap)).filterMap okOf), ?_, ?_⟩
  · simp only [runSuperstep]
    rw [answerFrontier_errs, h0, answerFrontier_fst, nextFrontier_answers]
    simp
  · exact mergeUpdates_questions_of_none _ _ fun u hu => answerFrontier_oks_mem f snap qs u hu

lemma runSupersteps_nil (f : String → Except String String) (n : Nat) (snap : SharedState) :
    runSupersteps f n snap [] = some (.ok snap) := by
  cases n <;> rfl

lemma runSupersteps_succ_cons (f : String → Except String String) (n : Nat)
    (snap : SharedState) (inst : NodeInstance) (rest : List NodeInstance) :
    runSupersteps f (n + 1) snap (inst :: rest) =
      match runSuperstep f snap (inst :: rest) with
      | .error e => some (.error e)
      | .ok (merged, next) => runSupersteps f n merged next := rfl

lemma invoke_eq (f : String → Except String String) (qs : List String) :
    invoke f qs = runSupersteps f 1 (initialState qs) (answerFrontier qs) := by
  unfold invoke
  rw [show (2 : Nat) = 1 + 1 from rfl, runSupersteps_succ_cons, runSuperstep_gen]
  rfl

lemma runSupersteps_answer_fuel (f : String → Except String String) (snap : SharedState)
    (qs : List String) (k : Nat) :
    runSupersteps f (k + 1) snap (answerFrontier qs) =
      runSupersteps f 1 snap (answerFrontier qs) := by
  cases qs with
  | nil => rw [show answerFrontier [] = [] from rfl, runSupersteps_nil, runSupersteps_nil]
  | cons q rest =>
    have hfr : answerFrontier (q :: rest) =
        (.answer_questions, { question := some q }) :: answerFrontier rest := rfl
    by_cases h0 : (List.filterMap (fun x => instanceError (f x)) (q :: rest)) = []
    · obtain ⟨m, hm, -⟩ := runSuperstep_answer_ok f snap (q :: rest) h0
      rw [hfr] at hm ⊢
      rw [show (1 : Nat) = 0 + 1 from rfl, runSupersteps_succ_cons, runSupersteps_succ_cons, hm]
      show runSupersteps f k m [] = runSupersteps f 0 m []
      rw [runSupersteps_nil, runSupersteps_nil]
    · have herr := runSuperstep_answer_err f snap (q :: rest) h0
      rw [hfr] at herr ⊢
      rw [show (1 : Nat) = 0 + 1 from rfl, runSupersteps_succ_cons, runSupersteps_succ_cons, herr]

lemma runSupersteps_ge_two (f : String → Except String String) (qs : List String) (k : Nat) :
    runSupersteps f (k + 2) (initialState qs) [(.generate_answers, {})] = invoke f qs := by
  rw [show k + 2 = (k + 1) + 1 from rfl, runSupersteps_succ_cons, runSuperstep_gen]
  show runSupersteps f (k + 1) (initialState qs) (answerFrontier qs) = _
  rw [runSupersteps_answer_fuel, invoke_eq]

lemma invoke_isSome (f : String → Except String String) (qs : List String) :
    ∃ r, invoke f qs = some r := by
  rw [invoke_eq]
  cases qs with
  | nil =>
    exact ⟨.ok (initialState []), by
      rw [show answerFrontier [] = [] from rfl, runSupersteps_nil]⟩
  | cons q rest =>
    have hfr : answerFrontier (q :: rest) =
        (.answer_questions, { question := some q }) :: answerFrontier rest := rfl
    by_cases h0 : (List.filterMap (fun x => instanceError (f x)) (q :: rest)) = []
    · obtain ⟨m, hm, -⟩ := runSuperstep_answer_ok f (initialState (q :: rest)) (q :: rest) h0
      refine ⟨.ok m, ?_⟩
      rw [hfr] at hm ⊢
      rw [show (1 : Nat) = 0 + 1 from rfl, runSupersteps_succ_cons, hm]
      show runSupersteps f 0 m [] = some (.ok m)
      rw [runSupersteps_nil]
    · have herr := runSuperstep_answer_err f (initialState (q :: rest)) (q :: rest) h0
      refine ⟨.error (.aggregate (List.filterMap (fun x => instanceError (f x)) (q :: rest))), ?_⟩
      rw [hfr] at herr ⊢
      rw [show (1 : Nat) = 0 + 1 from rfl, runSupersteps_succ_cons, herr]

lemma mergeUpdates_answers_g (g : String → String) (qs : List String) (q0 a0 : List String) :
    mergeUpdates ⟨q0, a0⟩ (qs.map fun q => ({ answers := some [g q] } : StateDelta)) =
      ⟨q0, a0 ++ qs.map g⟩ := by
  induction qs generalizing a0 with
  | nil => simp [mergeUpdates]
  | cons q rest ih =>
    show mergeUpdates (applyUpdate ⟨q0, a0⟩ { answers := some [g q] })
        (rest.map fun q => ({ answers := some [g q] } : StateDelta)) = ⟨q0, a0 ++ (q :: rest).map g⟩
    rw [show applyUpdate (⟨q0, a0⟩ : SharedState) ({ answers := some [g q] } : StateDelta) =
          ⟨q0, a0 ++ [g q]⟩ from rfl]
    rw [ih]
    simp

lemma runSuperstep_answer_pure (f : String → Except String String) (g : String → String)
    (snap : SharedState) (qs : List String) (hall : ∀ q ∈ qs, f q = .ok (g q)) :
    runSuperstep f snap (answerFrontier qs) =
      .ok (⟨snap.questions, snap.answers ++ qs.map g⟩, []) := by
  obtain ⟨q0, a0⟩ := snap
  have herrs : (qs.filterMap fun q => instanceError (f q)) = [] :=
    List.filterMap_eq_nil_iff.mpr fun q hq => by rw [hall q hq]; rfl
  simp only [runSuperstep]
  rw [answerFrontier_errs, herrs, answerFrontier_oks f g ⟨q0, a0⟩ qs hall, answerFrontier_fst,
    nextFrontier_answers, mergeUpdates_answers_g]
  simp

lemma invoke_pure (g : String → String) (qs : List String) :
    invoke (fun q => .ok (g q)) qs = some (.ok { questions := qs, answers := qs.map g }) := by
  rw [invoke_eq]
  cases qs with
  | nil =>
    rw [show answerFrontier [] = [] from rfl, runSupersteps_nil]
    rfl
  | cons q rest =>
    rw [show answerFrontier (q :: rest) =
          (.answer_questions, { question := some q }) :: answerFrontier rest from rfl,
        show (1 : Nat) = 0 + 1 from rfl, runSupersteps_succ_cons,
        show ((.answer_questions, { question := some q }) : NodeInstance) :: answerFrontier rest =
          answerFrontier (q :: rest) from rfl,
        runSuperstep_answer_pure (fun q => .ok (g q)) g (initialState (q :: rest)) (q :: rest)
          fun q _ => rfl]
    show runSupersteps _ 0 _ [] = _
    rw [runSupersteps_nil]
    rfl

lemma invoke_err (f : String → Except String String) (qs : List String)
    (hex : ∃ q ∈ qs, ∃ m, f q = .error m) :
    invoke f qs = some (.error (.aggregate (qs.filterMap fun q => instanceError (f q)))) := by
  have hne : (qs.filterMap fun q => instanceError (f q)) ≠ [] := by
    rcases hex with ⟨q, hq, m, hm⟩
    exact List.ne_nil_of_mem (List.mem_filterMap.mpr ⟨q, hq, by rw [hm]; rfl⟩)
  rw [invoke_eq]
  cases qs with
  | nil => rcases hex with ⟨q, hq, -⟩; exact absurd hq (List.not_mem_nil q)
  | cons q rest =>
    have herr := runSuperstep_answer_err f (initialState (q :: rest)) (q :: rest) hne
    rw [show answerFrontier (q :: rest) =
          (.answer_questions, { question := some q }) :: answerFrontier rest from rfl] at herr
    rw [show answerFrontier (q :: rest) =
          (.answer_questions, { question := some q }) :: answerFrontier rest from rfl,
        show (1 : Nat) = 0 + 1 from rfl, runSupersteps_succ_cons, herr]

lemma invoke_ne_routing (f : String → Except String String) (qs : List String) (t : String) :
    invoke f qs ≠ some (.error (.routingViolation t)) := by
  rw [invoke_eq]
  cases qs with
  | nil =>
    rw [show answerFrontier [] = [] from rfl, runSupersteps_nil]
    simp
  | cons q rest =>
    have hfr : answerFrontier (q :: rest) =
        (.answer_questions, { question := some q }) :: answerFrontier rest := rfl
    by_cases h0 : (List.filterMap (fun x => instanceError (f x)) (q :: rest)) = []
    · obtain ⟨m, hm, -⟩ := runSuperstep_answer_ok f (initialState (q :: rest)) (q :: rest) h0
      rw [hfr] at hm
      rw [hfr, show (1 : Nat) = 0 + 1 from rfl, runSupersteps_succ_cons, hm]
      show runSupersteps f 0 m [] ≠ _
      rw [runSupersteps_nil]
      simp
    · have herr := runSuperstep_answer_err f (initialState (q :: rest)) (q :: rest) h0
      rw [hfr] at herr
      rw [hfr, show (1 : Nat) = 0 + 1 from rfl, runSupersteps_succ_cons, herr]
      intro hcon
      have hcon' : (some (Except.error (EngineError.aggregate
          (List.filterMap (fun x => instanceError (f x)) (q :: rest)))) :
          Option (Except EngineError SharedState)) = some (.error (.routingViolation t)) := hcon
      simp at hcon'

lemma resolveSends_err_of_bad (allowed : List String) (sends : List Send)
    (hbad : ∃ s ∈ sends, s.target ∉ allowed) :
    ∃ t, resolveSends allowed sends = .error (.routingViolation t) := by
  induction sends with
  | nil => rcases hbad with ⟨s, hs, -⟩; exact absurd hs (List.not_mem_nil s)
  | cons s0 rest ih =>
    by_cases h0 : s0.target ∈ allowed
    · rcases hbad with ⟨s, hs, hnotin⟩
      rcases List.mem_cons.mp hs with rfl | hmem
      · exact absurd h0 hnotin
      · cases hres : resolveNode s0.target with
        | none =>
          have hsend : resolveSend allowed s0 = .error (.routingViolation s0.target) := by
            simp [resolveSend, h0, hres]
          exact ⟨s0.target, by simp only [resolveSends, hsend]⟩
        | some n =>
          rcases ih ⟨s, hmem, hnotin⟩ with ⟨t, ht⟩
          have hsend : resolveSend allowed s0 = .ok (n, s0.payload) := by
            simp [resolveSend, h0, hres]
          exact ⟨t, by simp only [resolveSends, hsend, ht]⟩
    · have hsend : resolveSend allowed s0 = .error (.routingViolation s0.target) := by
        simp [resolveSend, h0]
      exact ⟨s0.target, by simp only [resolveSends, hsend]⟩

/-! ### Claim theorems -/

/-- Claim C1: invoking the compiled graph with an initial state whose
`questions` field is `[q1, ..., qn]` (the input dict of line 60, in which the
append-reducer channel `answers` starts empty) yields a final state whose
`answers` field equals `[f q1, ..., f qn]` — exactly one contribution per
question, concatenated in the questions list's original order, where `f` is
the embedded answering function of `answer_questions`.  The engine model is
deterministic by the spec's merge rule (order derives from instruction list
position), so the result is independent of completion timing by
construction. -/
theorem invoke_answers_in_question_order (g : String → String) (qs : List String) :
    invoke (fun q => .ok (g q)) qs = some (.ok { questions := qs, answers := qs.map g }) :=
  invoke_pure g qs

/-- Claim C2: for every state, `send_logic` returns one dispatch instruction
per string in `state.questions`, in list order, the i-th targeting node
`"answer_questions"` with payload `{"question": questions[i]}`. -/
theorem send_logic_one_send_per_question (st : StateView) :
    (send_logic st).length = st.questions.length ∧
    ∀ (i : Nat) (h1 : i < st.questions.length) (h2 : i < (send_logic st).length),
      (send_logic st).get ⟨i, h2⟩ =
        { target := "answer_questions",
          payload := { question := some (st.questions.get ⟨i, h1⟩) } } := by
  refine ⟨by simp [send_logic], fun i h1 h2 => ?_⟩
  simp [send_logic, List.get_eq_getElem, List.getElem_map]

/-- Claim C2 witness: the instantiation at a concrete state and index. -/
theorem send_logic_one_send_per_question_witness :
    (send_logic { questions := ["a"], answers := [], question := none }).get
        ⟨0, by decide⟩ =
      { target := "answer_questions", payload := { question := some "a" } } :=
  (send_logic_one_send_per_question
    { questions := ["a"], answers := [], question := none }).2 0 (by decide) (by decide)

/-- Claim C3 counterexample: `send_logic` applied to a state whose
`questions` list is empty returns the empty instruction list, so it is not
the case that every node/routing function returns a partial-state mapping or
a NON-EMPTY list of dispatch instructions. -/
theorem send_logic_empty_on_no_questions :
    send_logic { questions := [], answers := [], question := none } = [] := rfl

/-- Claim C3 (amended): `generate_answers` and `answer_questions` always
return a partial-state mapping (their embedded types show this), and
`send_logic` returns one dispatch instruction per question, so its
instruction list is empty exactly when `state.questions` is empty — in
particular it is non-empty whenever at least one question is present, but it
IS empty for a state with no questions. -/
theorem send_logic_nil_iff_questions_nil (st : StateView) :
    send_logic st = [] ↔ st.questions = [] := by
  simp [send_logic]

/-- Claim C4: the payload of the i-th dispatch instruction produced by
`send_logic` is overlaid on top of (not replacing) the shared snapshot: the
`answer_questions` instance spawned by the i-th instruction sees a view
containing both shared snapshot fields (`questions`, `answers`) unchanged,
plus the extra field `question = questions[i]` — its own payload, not a
sibling's. -/
theorem dispatch_payload_overlay_view (snap : SharedState) (i : Nat)
    (h1 : i < snap.questions.length) (h2 : i < (send_logic (view snap {})).length) :
    view snap ((send_logic (view snap {})).get ⟨i, h2⟩).payload =
      { questions := snap.questions, answers := snap.answers,
        question := some (snap.questions.get ⟨i, h1⟩) } := by
  simp [send_logic, view, List.get_eq_getElem, List.getElem_map]

/-- Claim C4 witness: instantiation at a concrete snapshot and index. -/
theorem dispatch_payload_overlay_view_witness :
    view { questions := ["a", "b"], answers := ["x"] }
        ((send_logic (view { questions := ["a", "b"], answers := ["x"] } {})).get
          ⟨1, by decide⟩).payload =
      { questions := ["a", "b"], answers := ["x"], question := some "b" } :=
  dispatch_payload_overlay_view { questions := ["a", "b"], answers := ["x"] } 1
    (by decide) (by decide)

/-- Claim C5: a dispatch list containing a target outside the conditional
edge's declared `allowed_targets` always fails resolution with a
`routingViolation` (never silently ignored); for this graph's sole
conditional edge (`allowed_targets = ["answer_questions"]`), `send_logic`
only ever targets `"answer_questions"`, so resolution always succeeds and no
invocation of the graph can ever fail with a routing violation. -/
theorem routing_violation_semantics :
    (∀ st : StateView, resolveSends ["answer_questions"] (send_logic st) =
        .ok (answerFrontier st.questions)) ∧
    (∀ (allowed : List String) (sends : List Send), (∃ s ∈ sends, s.target ∉ allowed) →
        ∃ t, resolveSends allowed sends = .error (.routingViolation t)) ∧
    (∀ (f : String → Except String String) (qs : List String) (t : String),
        invoke f qs ≠ some (.error (.routingViolation t))) :=
  ⟨resolveSends_send_logic, resolveSends_err_of_bad, invoke_ne_routing⟩

/-- Claim C5 witness: a rogue target fails resolution, and a concrete
invocation cannot produce a routing violation. -/
theorem routing_violation_semantics_witness :
    (∃ t, resolveSends ["answer_questions"] [{ target := "rogue", payload := {} }] =
        .error (.routingViolation t)) ∧
      invoke (fun q => .ok q) ["a"] ≠ some (.error (.routingViolation "answer_questions")) :=
  ⟨routing_violation_semantics.2.1 ["answer_questions"] [{ target := "rogue", payload := {} }]
      ⟨{ target := "rogue", payload := {} }, List.mem_singleton.mpr rfl, by decide⟩,
    routing_violation_semantics.2.2 (fun q => .ok q) ["a"] "answer_questions"⟩

/-- Claim C6: if at least one `answer_questions` instance raises during the
fan-out superstep, the whole invocation fails with an aggregate error
bundling exactly the errors of the failed instances (in instruction order —
all siblings contribute, so all are run), and no partial `answers` state is
returned to the caller. -/
theorem aggregate_error_on_instance_failure (f : String → Except String String)
    (qs : List String) (hex : ∃ q ∈ qs, ∃ m, f q = .error m) :
    invoke f qs = some (.error (.aggregate (qs.filterMap fun q => instanceError (f q)))) ∧
      ∀ s : SharedState, invoke f qs ≠ some (.ok s) := by
  have h := invoke_err f qs hex
  refine ⟨h, fun s hcontra => ?_⟩
  rw [h] at hcontra
  simp at hcontra

/-- Claim C6 witness: the spec's failure scenario — the instance for `"b"`
fails while the sibling for `"a"` succeeds; the invocation fails with an
aggregate error containing exactly one inner error and returns no state. -/
theorem aggregate_error_on_instance_failure_witness :
    invoke (fun q => if q = "b" then .error "boom" else .ok q) ["a", "b"] =
        some (.error (.aggregate (["a", "b"].filterMap fun q =>
          instanceError (if q = "b" then .error "boom" else .ok q)))) ∧
      ∀ s : SharedState,
        invoke (fun q => if q = "b" then .error "boom" else .ok q) ["a", "b"] ≠
          some (.ok s) :=
  aggregate_error_on_instance_failure (fun q => if q = "b" then .error "boom" else .ok q)
    ["a", "b"] ⟨"b", by decide, "boom", rfl⟩

/-- Claim C7: for every initial state the invocation terminates — the
frontier becomes empty within two supersteps (the graph is acyclic:
START -> generate_answers -> answer_questions -> END), so running with any
fuel of at least 2 gives the same result as `invoke`, and `invoke` always
returns a result (the fully merged state, or the superstep's aggregate
error) rather than exhausting its fuel. -/
theorem invoke_terminates_within_two_supersteps (f : String → Except String String)
    (qs : List String) (n : Nat) (hn : 2 ≤ n) :
    runSupersteps f n (initialState qs) [(.generate_answers, {})] = invoke f qs ∧
      ∃ r, invoke f qs = some r := by
  obtain ⟨k, rfl⟩ : ∃ k, n = k + 2 := ⟨n - 2, by omega⟩
  exact ⟨runSupersteps_ge_two f qs k, invoke_isSome f qs⟩

/-- Claim C7 witness: instantiation at fuel 2 and a concrete input. -/
theorem invoke_terminates_within_two_supersteps_witness :
    runSupersteps (fun q => .ok q) 2 (initialState ["a"]) [(.generate_answers, {})] =
        invoke (fun q => .ok q) ["a"] ∧
      ∃ r, invoke (fun q => .ok q) ["a"] = some r :=
  invoke_terminates_within_two_supersteps (fun q => .ok q) ["a"] 2 (Nat.le_refl 2)

/-- Claim C8: noninterference of an `answer_questions` instance — its result
depends only on the `question` field of its own view (with the external
model embedded as a fixed function), so any two input states agreeing on
`question` produce equal results; in particular no sibling's partial update
can influence it. -/
theorem answer_questions_noninterference (f : String → Except String String)
    (s1 s2 : StateView) (h : s1.question = s2.question) :
    answer_questions f s1 = answer_questions f s2 := by
  unfold answer_questions
  rw [h]

/-- Claim C8 witness: two states differing in everything but `question`. -/
theorem answer_questions_noninterference_witness :
    answer_questions (fun q => .ok q) { questions := ["x"], answers := [], question := some "q" } =
      answer_questions (fun q => .ok q)
        { questions := [], answers := ["other"], question := some "q" } :=
  answer_questions_noninterference (fun q => .ok q)
    { questions := ["x"], answers := [], question := some "q" }
    { questions := [], answers := ["other"], question := some "q" } rfl

/-- Claim C9: frame property — every invocation that completes successfully
returns a final state whose `questions` field equals the initial state's
`questions` list: `generate_answers` overwrites it with the identical list it
received, and `answer_questions` instances only contribute to `answers`. -/
theorem invoke_preserves_questions (f : String → Except String String)
    (qs : List String) (s : SharedState) (h : invoke f qs = some (.ok s)) :
    s.questions = qs := by
  rw [invoke_eq] at h
  cases qs with
  | nil =>
    rw [show answerFrontier [] = [] from rfl, runSupersteps_nil] at h
    simp only [Option.some.injEq, Except.ok.injEq] at h
    rw [← h]
    rfl
  | cons q rest =>
    have hfr : answerFrontier (q :: rest) =
        (.answer_questions, { question := some q }) :: answerFrontier rest := rfl
    by_cases h0 : (List.filterMap (fun x => instanceError (f x)) (q :: rest)) = []
    · obtain ⟨m, hm, hq⟩ := runSuperstep_answer_ok f (initialState (q :: rest)) (q :: rest) h0
      rw [hfr] at hm
      rw [hfr, show (1 : Nat) = 0 + 1 from rfl, runSupersteps_succ_cons, hm] at h
      have h' : runSupersteps f 0 m [] = some (.ok s) := h
      rw [runSupersteps_nil] at h'
      simp only [Option.some.injEq, Except.ok.injEq] at h'
      rw [← h']
      exact hq
    · have herr := runSuperstep_answer_err f (initialState (q :: rest)) (q :: rest) h0
      rw [hfr] at herr
      rw [hfr, show (1 : Nat) = 0 + 1 from rfl, runSupersteps_succ_cons, herr] at h
      have h' : (some (Except.error (EngineError.aggregate
          (List.filterMap (fun x => instanceError (f x)) (q :: rest)))) :
          Option (Except EngineError SharedState)) = some (.ok s) := h
      simp at h'

/-- Claim C9 witness: a concrete successful invocation preserves
`questions`. -/
theorem invoke_preserves_questions_witness :
    (SharedState.mk ["a"] ["a!"]).questions = ["a"] :=
  invoke_preserves_questions (fun q => .ok (q ++ "!")) ["a"] ⟨["a"], ["a!"]⟩ rfl

/-- Claim C10: `answer_questions` requires the key `question`, which is not
a field of the declared `MessagesState` schema; applied to any state lacking
it — in particular a plain shared-schema state — it fails with a lookup
(key) error, so it is only safely invocable through a dispatch payload that
supplies `question`. -/
theorem answer_questions_requires_question_key :
    MessagesState.fields.contains "question" = false ∧
    ∀ (f : String → Except String String) (st : StateView), st.question = none →
      answer_questions f st = .error (.keyError "question") := by
  refine ⟨rfl, fun f st h => ?_⟩
  unfold answer_questions
  rw [h]

/-- Claim C10 witness: a plain shared-schema state (no `question` overlay)
makes `answer_questions` fail with the key error. -/
theorem answer_questions_requires_question_key_witness :
    answer_questions (fun q => .ok q) { questions := ["a"], answers := [], question := none } =
      .error (.keyError "question") :=
  answer_questions_requires_question_key.2 (fun q => .ok q)
    { questions := ["a"], answers := [], question := none } rfl
